import Mathlib

/-!
Verification development for the TaskHome scheduler (`app.py`).

The development shallowly embeds the scheduling core: the recurrence
calculator `calculate_next`, the startup reconciliation pass and the main
tick of `scheduler_loop`, the history insertion performed by `print_task`
and `print_scf_issue`, the `settings` history truncation, and the SCF
listener check.

Modelling conventions:
* Python `datetime` values are modelled by `PyDateTime`: a proleptic
  Gregorian calendar date (`Date`, year at least 1, unbounded above) plus a
  time of day in seconds.  Timestamps of interest in the application carry
  whole seconds; sub-second precision and timezone offsets play no role in
  the embedded code paths (the scheduler normalises everything to UTC via
  `replace(tzinfo=timezone.utc)`), so they are omitted.
* The unbounded `while True` loops of `calculate_next` and the unbounded
  `while next_time < now` loop of the startup reconciliation are given an
  explicit fuel parameter; a result of `none` for every fuel value models
  divergence of the Python loop.
* Raised-and-uncaught Python exceptions are modelled by `Option`/flag
  results; a stored `next_time` string that `datetime.fromisoformat`
  rejects is modelled by `TaskData.next_time = none`.
* External effects are oracle parameters: printer presence (`connected`),
  success of the ESC/POS render calls (`renderOk`), and the SCF HTTP fetch
  (`fetch : Option (List Issue)`, `none` meaning the fetch, JSON decode or
  the `created_at` sort raised inside the listener's `try` block).
-/

/-- Leap-year test of the Gregorian calendar, as used by Python's
`datetime`/`dateutil` date arithmetic. -/
def isLeap (y : Nat) : Bool :=
  (y % 4 == 0 && y % 100 != 0) || y % 400 == 0

/-- Number of days of month `m` (1..12) in a (non-)leap year. -/
def daysInMonth (leap : Bool) (m : Nat) : Nat :=
  match m with
  | 2 => if leap then 29 else 28
  | 4 | 6 | 9 | 11 => 30
  | _ => 31

/-- Days elapsed before the first day of month `m` (1..12) within a year. -/
def daysBeforeMonth (leap : Bool) (m : Nat) : Nat :=
  let l : Nat := if leap then 1 else 0
  match m with
  | 1 => 0
  | 2 => 31
  | 3 => 59 + l
  | 4 => 90 + l
  | 5 => 120 + l
  | 6 => 151 + l
  | 7 => 181 + l
  | 8 => 212 + l
  | 9 => 243 + l
  | 10 => 273 + l
  | 11 => 304 + l
  | _ => 334 + l

/-- Number of leap years in `[1, y]`. -/
def leapsUpto (y : Nat) : Nat := y / 4 - y / 100 + y / 400

/-- A calendar date (proleptic Gregorian, year 1 onwards). -/
structure Date where
  year : Nat
  month : Nat
  day : Nat
deriving DecidableEq, Repr

/-- Well-formedness of a `Date`: the dates representable by Python's
`datetime.date` (the model does not impose `datetime`'s upper year bound). -/
def Date.Valid (d : Date) : Prop :=
  1 ≤ d.year ∧ 1 ≤ d.month ∧ d.month ≤ 12 ∧ 1 ≤ d.day ∧
    d.day ≤ daysInMonth (isLeap d.year) d.month

instance (d : Date) : Decidable d.Valid := by
  unfold Date.Valid; infer_instance

/-- Day count of a date measured from the day before 0001-01-01. -/
def toDays (d : Date) : Nat :=
  365 * (d.year - 1) + leapsUpto (d.year - 1) +
    daysBeforeMonth (isLeap d.year) d.month + d.day

/-- The calendar successor of a date: `timedelta(days=1)` on the date part. -/
def nextDay (d : Date) : Date :=
  if d.day < daysInMonth (isLeap d.year) d.month then ⟨d.year, d.month, d.day + 1⟩
  else if d.month < 12 then ⟨d.year, d.month + 1, 1⟩
  else ⟨d.year + 1, 1, 1⟩

/-- Adding `k` calendar days: `timedelta(days=k)` on the date part. -/
def addDays : Nat → Date → Date
  | 0, d => d
  | k + 1, d => addDays k (nextDay d)

/-- Python's `date.weekday()`: Monday is 0, Sunday is 6. -/
def weekday (d : Date) : Nat := (toDays d + 6) % 7

/-- A Python `datetime` value: date plus time of day in seconds. -/
structure PyDateTime where
  date : Date
  tod : Nat
deriving DecidableEq, Repr

/-- Seconds elapsed since the epoch of `toDays`; Python's chronological
comparison of two datetimes is comparison of these counts. -/
def toSecs (t : PyDateTime) : Nat := 86400 * toDays t.date + t.tod

/-- Chronological strict order on datetimes (Python `<` on `datetime`). -/
def pyLt (a b : PyDateTime) : Bool := decide (toSecs a < toSecs b)

/-- Chronological order on datetimes (Python `<=` on `datetime`). -/
def pyLe (a b : PyDateTime) : Bool := decide (toSecs a ≤ toSecs b)

/-- Fuel-bounded embedding of the `while True` advance-one-day loops of
`calculate_next` (`app.py` lines 134-137 and 143-146): starting from `d`,
step to the next calendar day until the predicate holds.  `none` means the
loop did not finish within `fuel` iterations; the Python loop diverges
exactly when the result is `none` for every fuel value. -/
def searchDay (p : Date → Bool) : Nat → Date → Option Date
  | 0, _ => none
  | fuel + 1, d =>
    let d' := nextDay d
    if p d' then some d' else searchDay p fuel d'

/-- The date part of `next_time + relativedelta(months=1)`: the next month,
with the day-of-month clamped to the last valid day (dateutil's clamping
behaviour, e.g. Jan 31 to Feb 28/29). -/
def addMonthsClamp (d : Date) : Date :=
  if d.month < 12 then
    ⟨d.year, d.month + 1, min d.day (daysInMonth (isLeap d.year) (d.month + 1))⟩
  else
    ⟨d.year + 1, 1, min d.day 31⟩

/-- The date part of `next_time + relativedelta(months=1, day=1)`: the first
day of the following month. -/
def firstOfNextMonth (d : Date) : Date :=
  if d.month < 12 then ⟨d.year, d.month + 1, 1⟩ else ⟨d.year + 1, 1, 1⟩

/-- Embedding of `calculate_next(next_time_str, recurring, days)` (`app.py`
lines 124-147), stated on the parsed datetime value: the string has already
been parsed by `datetime.fromisoformat` and every branch formats its result
back with `isoformat`, so only the datetime value matters.  `fuel` bounds
the two `while True` loops; the other branches ignore it.  `days = none`
models the Python default `days=None`; the `custom` branch replaces a falsy
`days` (`None` or `[]`) by `[]` exactly as `if not days: days = []` does.
The final `return next_time_str` (reached for `'none'` and every
unrecognised kind) is the identity on the input. -/
def calculate_next (fuel : Nat) (t : PyDateTime) (recurring : String)
    (days : Option (List Nat)) : Option PyDateTime :=
  if recurring = "daily" then some ⟨addDays 1 t.date, t.tod⟩
  else if recurring = "weekly" then some ⟨addDays 7 t.date, t.tod⟩
  else if recurring = "monthly" then some ⟨addMonthsClamp t.date, t.tod⟩
  else if recurring = "every_weekday" then
    (searchDay (fun d => decide (weekday d < 5)) fuel t.date).map (fun d => ⟨d, t.tod⟩)
  else if recurring = "first_day_month" then some ⟨firstOfNextMonth t.date, t.tod⟩
  else if recurring = "custom" then
    let ds := days.getD []
    (searchDay (fun d => ds.contains (weekday d)) fuel t.date).map (fun d => ⟨d, t.tod⟩)
  else some t

/-- Fuel-bounded embedding of the startup reconciliation loop of
`scheduler_loop` (`app.py` lines 286-288):
`while next_time < now: next_time_str = calculate_next(...)`.
`none` for every fuel value models divergence of the Python loop (either of
the loop itself, or of a `calculate_next` call inside it). -/
def reconcileNext : Nat → PyDateTime → PyDateTime → String → Option (List Nat) →
    Option PyDateTime
  | 0, _, _, _, _ => none
  | fuel + 1, now, nt, recurring, days =>
    if pyLt nt now then
      match calculate_next (fuel + 1) nt recurring days with
      | none => none
      | some nt2 => reconcileNext fuel now nt2 recurring days
    else some nt

/-- A task record (`tasks.json` entry).  `next_time = none` models a stored
`next_time` string that `datetime.fromisoformat` rejects (the parse raising
`ValueError`); a parseable string is represented by its parsed value, since
`calculate_next` round-trips values through `isoformat`. -/
structure TaskData where
  id : String
  title : String
  next_time : Option PyDateTime
  recurring : String
  days : Option (List Nat)
  enabled : Bool
deriving DecidableEq, Repr

/-- Startup reconciliation of a single task (`app.py` lines 280-291): a
disabled task is skipped; a task whose `next_time` fails to parse raises
inside the per-task `try` and is left unchanged (the `except` on line 290
logs and continues); otherwise the while-loop advances `next_time` until it
is not before `now`.  `none` models divergence. -/
def reconcileTask (fuel : Nat) (now : PyDateTime) (t : TaskData) : Option TaskData :=
  if t.enabled = false then some t
  else
    match t.next_time with
    | none => some t
    | some nt =>
      (reconcileNext fuel now nt t.recurring t.days).map
        (fun nt2 => { t with next_time := some nt2 })

/-- Startup reconciliation over the whole task store (`app.py` lines
279-292).  Divergence while reconciling one task hangs the whole pass (the
scheduler thread never reaches `save_tasks()` or the main loop), so the
store-level result is `none` as soon as one task diverges. -/
def reconcileStartup (fuel : Nat) (now : PyDateTime) : List TaskData → Option (List TaskData)
  | [] => some []
  | t :: ts =>
    match reconcileTask fuel now t with
    | none => none
    | some t2 => (reconcileStartup fuel now ts).map (fun ts2 => t2 :: ts2)

/-- A history entry: the snapshot `print_task`/`print_scf_issue` insert is
abstracted to its tag (`'task'` or `'scf'`), the identifier of the source
record, and the render timestamp. -/
structure HistEntry where
  type : String
  refId : String
  print_time : PyDateTime
deriving DecidableEq, Repr

/-- Embedding of `print_task` (`app.py` lines 150-202): with no printer
connected it returns before rendering (history untouched); if the ESC/POS
calls raise (`renderOk = false`) the exception is caught by the handler on
line 201 before the history insert; on success the entry is inserted at the
front and the history truncated to `max_history`.  Returns the new history
and whether a render happened. -/
def print_task (connected renderOk : Bool) (maxH : Nat) (now : PyDateTime)
    (t : TaskData) (history : List HistEntry) : List HistEntry × Bool :=
  if connected = false then (history, false)
  else if renderOk then
    (({ type := "task", refId := t.id, print_time := now } :: history).take maxH, true)
  else (history, false)

/-- An SCF issue record, abstracted to the fields the scheduler logic
touches. -/
structure Issue where
  id : Nat
  created_at : String
  html_url : String
deriving DecidableEq, Repr

/-- Embedding of `print_scf_issue` (`app.py` lines 205-274): same skip /
catch / insert-and-truncate structure as `print_task`. -/
def print_scf_issue (connected renderOk : Bool) (maxH : Nat) (now : PyDateTime)
    (issue : Issue) (history : List HistEntry) : List HistEntry × Bool :=
  if connected = false then (history, false)
  else if renderOk then
    (({ type := "scf", refId := toString issue.id, print_time := now } :: history).take maxH,
      true)
  else (history, false)

/-- The `'scf'` listener configuration (`listeners.json`).  `last_check` is
kept as the stored string (`None` or a timestamp). -/
structure Listener where
  enabled : Bool
  request_types : String
  interval : Int
  last_check : Option String
deriving DecidableEq, Repr

/-- Python's `str.strip()` with no argument: drop leading and trailing
whitespace.  Implemented on the character list so that it evaluates inside
the kernel. -/
def stripStr (s : String) : String :=
  ⟨((s.data.dropWhile Char.isWhitespace).reverse.dropWhile Char.isWhitespace).reverse⟩

/-- Zero-padded two-digit rendering of a field of `%Y-%m-%dT%H:%M:%SZ`. -/
def pad2 (n : Nat) : String := if n < 10 then "0" ++ toString n else toString n

/-- Zero-padded four-digit year of `%Y`. -/
def pad4 (n : Nat) : String :=
  if n < 10 then "000" ++ toString n
  else if n < 100 then "00" ++ toString n
  else if n < 1000 then "0" ++ toString n
  else toString n

/-- `now_utc.strftime('%Y-%m-%dT%H:%M:%SZ')` (`app.py` lines 334, 336,
358): the strict UTC timestamp format the listener code writes. -/
def strftimeStrict (t : PyDateTime) : String :=
  pad4 t.date.year ++ "-" ++ pad2 t.date.month ++ "-" ++ pad2 t.date.day ++ "T" ++
    pad2 (t.tod / 3600) ++ ":" ++ pad2 (t.tod % 3600 / 60) ++ ":" ++ pad2 (t.tod % 60) ++ "Z"

/-- Numeric value of a decimal digit character. -/
def digitVal (c : Char) : Option Nat := if c.isDigit then some (c.toNat - 48) else none

/-- Two decimal digits. -/
def parse2 (a b : Char) : Option Nat := do
  let x ← digitVal a
  let y ← digitVal b
  pure (x * 10 + y)

/-- `dateutil.parser.parse` applied to a stored `last_check` value
(`app.py` line 323), modelled for the strict `%Y-%m-%dT%H:%M:%SZ` format —
the only format the application itself ever writes into `last_check`
(line 358).  Any other string is modelled as unparseable, which the caller
turns into the `None` fallback. -/
def parseStrict (s : String) : Option PyDateTime :=
  match s.toList with
  | [y1, y2, y3, y4, '-', mo1, mo2, '-', d1, d2, 'T',
     h1, h2, ':', mi1, mi2, ':', s1, s2, 'Z'] => do
    let yh ← parse2 y1 y2
    let yl ← parse2 y3 y4
    let mo ← parse2 mo1 mo2
    let dd ← parse2 d1 d2
    let hh ← parse2 h1 h2
    let mi ← parse2 mi1 mi2
    let ss ← parse2 s1 s2
    let dt : Date := ⟨yh * 100 + yl, mo, dd⟩
    if dt.Valid ∧ hh < 24 ∧ mi < 60 ∧ ss < 60 then
      pure ⟨dt, hh * 3600 + mi * 60 + ss⟩
    else none
  | _ => none

/-- Eligibility of the SCF listener within a tick (`app.py` lines 316-330):
a missing, falsy or unparseable `last_check` counts as due (the parse
failure fallback on lines 327-329 leaves `last_check_dt = None`); otherwise
the check is due when `now_utc - last_check_dt >= timedelta(minutes=interval)`. -/
def scfDue (nowUtc : PyDateTime) (scf : Listener) : Bool :=
  match scf.last_check with
  | none => true
  | some s =>
    match parseStrict (stripStr s) with
    | none => true
    | some lc => decide ((toSecs nowUtc : Int) - (toSecs lc : Int) ≥ 60 * scf.interval)

/-- Embedding of the listener block of a tick (`app.py` lines 312-365).
`fetch = none` models any exception inside the inner `try` (lines 331-363):
network failure, non-2xx status, JSON decode error, or the `created_at`
sort raising — the handler on line 362 logs it and nothing is changed.  On
a successful fetch the issues are printed oldest-first and `last_check` is
set to `now_utc` in the strict format (line 358); failures inside
`print_scf_issue` are caught by its own handler and do not prevent the
`last_check` update. -/
def checkScf (nowUtc : PyDateTime) (connected renderOk : Bool) (maxH : Nat)
    (fetch : Option (List Issue)) (scf : Listener) (history : List HistEntry) :
    Listener × List HistEntry :=
  if scf.enabled = true ∧ stripStr scf.request_types ≠ "" then
    if scfDue nowUtc scf then
      match fetch with
      | none => (scf, history)
      | some issues =>
        let sorted := List.insertionSort (fun a b => a.created_at ≤ b.created_at) issues
        let history2 := sorted.foldl
          (fun h i => (print_scf_issue connected renderOk maxH nowUtc i h).1) history
        ({ scf with last_check := some (strftimeStrict nowUtc) }, history2)
    else (scf, history)
  else (scf, history)

/-- Embedding of the per-tick task sweep (`app.py` lines 299-309), iterating
over a copy of the list while the original is mutated in place.  The result
carries the surviving task list, the history, and a flag set when an
exception escaped the sweep: the body runs inside the single `try` block of
the whole tick (line 296), so `datetime.fromisoformat` raising on one
task's stored `next_time` (line 302) jumps to the handler on line 366,
leaving that task and every later task unprocessed for this tick.  `none`
models divergence (a `calculate_next` call that never terminates). -/
def sweepTasks (connected renderOk : Bool) (fuel maxH : Nat) (now : PyDateTime) :
    List TaskData → List HistEntry → Option (List TaskData × List HistEntry × Bool)
  | [], h => some ([], h, false)
  | t :: ts, h =>
    if t.enabled = false then
      (sweepTasks connected renderOk fuel maxH now ts h).map
        (fun r => (t :: r.1, r.2.1, r.2.2))
    else
      match t.next_time with
      | none => some (t :: ts, h, true)
      | some nt =>
        if pyLe nt now then
          let h2 := (print_task connected renderOk maxH now t h).1
          if t.recurring = "none" then
            sweepTasks connected renderOk fuel maxH now ts h2
          else
            match calculate_next fuel nt t.recurring t.days with
            | none => none
            | some nt2 =>
              (sweepTasks connected renderOk fuel maxH now ts h2).map
                (fun r => ({ t with next_time := some nt2 } :: r.1, r.2.1, r.2.2))
        else
          (sweepTasks connected renderOk fuel maxH now ts h).map
            (fun r => (t :: r.1, r.2.1, r.2.2))

/-- The process-wide mutable state the tick touches. -/
structure AppState where
  tasks : List TaskData
  history : List HistEntry
  max_history : Nat
  scf : Option Listener
deriving DecidableEq, Repr

/-- One iteration of the main `while True` loop of `scheduler_loop`
(`app.py` lines 294-367): sweep the tasks, then — only if no exception
escaped the sweep — run the SCF listener check (`'scf' in listeners` on
line 312 is the `Option` on `scf`).  The whole body sits in one `try`, so a
raised sweep skips the listener for this tick but the loop itself survives
to the next tick. -/
def tick (connected renderOk : Bool) (fuel : Nat) (now nowUtc : PyDateTime)
    (fetch : Option (List Issue)) (st : AppState) : Option AppState :=
  match sweepTasks connected renderOk fuel st.max_history now st.tasks st.history with
  | none => none
  | some (tasks2, hist2, raised) =>
    if raised then some { st with tasks := tasks2, history := hist2 }
    else
      match st.scf with
      | none => some { st with tasks := tasks2, history := hist2 }
      | some scf =>
        let r := checkScf nowUtc connected renderOk st.max_history fetch scf hist2
        some { tasks := tasks2, history := r.2, max_history := st.max_history,
               scf := some r.1 }

/-- The history mutation of a `settings` POST that is not `clear_history`
(`app.py` lines 396-401): after storing the new `max_history` the existing
history is truncated to it (`history[:] = history[:config['max_history']]`).
`max_history` is a non-negative entry count. -/
def settings_post (newMax : Nat) (history : List HistEntry) : List HistEntry :=
  history.take newMax

theorem daysInMonth_pos (leap : Bool) (m : Nat) : 1 ≤ daysInMonth leap m := by
  unfold daysInMonth
  split <;> first
  | (split <;> omega)
  | omega

theorem leapsUpto_succ (y : Nat) (hy : 1 ≤ y) :
    leapsUpto y = leapsUpto (y - 1) + (if isLeap y then 1 else 0) := by
  unfold leapsUpto isLeap
  split
  · rename_i h
    simp only [Bool.or_eq_true, Bool.and_eq_true, beq_iff_eq, bne_iff_ne, ne_eq] at h
    omega
  · rename_i h
    simp only [Bool.or_eq_true, Bool.and_eq_true, beq_iff_eq, bne_iff_ne, ne_eq] at h
    push_neg at h
    omega

theorem daysBeforeMonth_succ (leap : Bool) (m : Nat) (h1 : 1 ≤ m) (h2 : m ≤ 11) :
    daysBeforeMonth leap (m + 1) = daysBeforeMonth leap m + daysInMonth leap m := by
  interval_cases m <;> cases leap <;> rfl

theorem toDays_nextDay (d : Date) (hv : d.Valid) :
    toDays (nextDay d) = toDays d + 1 := by
  obtain ⟨hy, hm1, hm2, hd1, hd2⟩ := hv
  unfold nextDay
  split
  · simp only [toDays]
    omega
  · split
    · rename_i hno hlt
      have hs := daysBeforeMonth_succ (isLeap d.year) d.month hm1 (by omega)
      simp only [toDays]
      omega
    · rename_i hno hno2
      have hm : d.month = 12 := by omega
      have hL := leapsUpto_succ d.year hy
      have h1 : daysBeforeMonth (isLeap (d.year + 1)) 1 = 0 := rfl
      simp only [toDays, h1, Nat.add_sub_cancel]
      rw [hm] at hd2 hno ⊢
      cases h : isLeap d.year
      · rw [h] at hL hd2 hno
        simp at hL
        rw [show daysBeforeMonth false 12 = 334 from rfl]
        rw [show daysInMonth false 12 = 31 from rfl] at hd2 hno
        omega
      · rw [h] at hL hd2 hno
        simp at hL
        rw [show daysBeforeMonth true 12 = 335 from rfl]
        rw [show daysInMonth true 12 = 31 from rfl] at hd2 hno
        omega

theorem nextDay_valid (d : Date) (hv : d.Valid) : (nextDay d).Valid := by
  obtain ⟨hy, hm1, hm2, hd1, hd2⟩ := hv
  unfold nextDay
  split
  · rename_i h
    simp only [Date.Valid]
    omega
  · split
    · rename_i h1 h2
      have hp := daysInMonth_pos (isLeap d.year) (d.month + 1)
      simp only [Date.Valid]
      omega
    · rename_i h1 h2
      have hp := daysInMonth_pos (isLeap (d.year + 1)) 1
      simp only [Date.Valid]
      omega

theorem toDays_addDays (k : Nat) (d : Date) (hv : d.Valid) :
    toDays (addDays k d) = toDays d + k ∧ (addDays k d).Valid := by
  induction k generalizing d with
  | zero => simpa [addDays] using hv
  | succ n ih =>
    have h1 := toDays_nextDay d hv
    have h2 := nextDay_valid d hv
    obtain ⟨ha, hb⟩ := ih (nextDay d) h2
    exact ⟨by simp only [addDays]; omega, by simpa [addDays] using hb⟩

theorem weekday_addDays (k : Nat) (d : Date) (hv : d.Valid) :
    weekday (addDays k d) = (weekday d + k) % 7 := by
  unfold weekday
  rw [(toDays_addDays k d hv).1]
  omega

theorem addDays_one (d : Date) : addDays 1 d = nextDay d := rfl

theorem addDays_succ (k : Nat) (d : Date) :
    addDays (k + 1) d = addDays k (nextDay d) := rfl

theorem searchDay_sound (p : Date → Bool) (fuel : Nat) (d e : Date)
    (h : searchDay p fuel d = some e) :
    ∃ j, 1 ≤ j ∧ j ≤ fuel ∧ e = addDays j d ∧ p e = true := by
  induction fuel generalizing d with
  | zero => simp [searchDay] at h
  | succ n ih =>
    simp only [searchDay] at h
    by_cases hp : p (nextDay d) = true
    · rw [if_pos hp] at h
      have he : nextDay d = e := Option.some.inj h
      exact ⟨1, le_refl 1, by omega, by rw [← he]; rfl, by rw [← he]; exact hp⟩
    · rw [if_neg hp] at h
      obtain ⟨j, hj1, hj2, he, hpe⟩ := ih (nextDay d) h
      exact ⟨j + 1, by omega, by omega, by rw [addDays_succ]; exact he, hpe⟩

theorem searchDay_found (p : Date → Bool) (fuel k : Nat) (d : Date)
    (h1 : 1 ≤ k) (h2 : k ≤ fuel) (hp : p (addDays k d) = true) :
    ∃ e, searchDay p fuel d = some e := by
  induction fuel generalizing d k with
  | zero => omega
  | succ n ih =>
    by_cases hp1 : p (nextDay d) = true
    · exact ⟨nextDay d, by simp [searchDay, hp1]⟩
    · obtain ⟨k2, rfl⟩ : ∃ k2, k = k2 + 1 := ⟨k - 1, by omega⟩
      have hk2 : 1 ≤ k2 := by
        rcases Nat.eq_zero_or_pos k2 with h0 | h0
        · subst h0
          rw [addDays_one] at hp
          exact absurd hp hp1
        · exact h0
      have hpk : p (addDays k2 (nextDay d)) = true := by
        rw [← addDays_succ]; exact hp
      obtain ⟨e, he⟩ := ih k2 (nextDay d) hk2 (by omega) hpk
      exact ⟨e, by simp [searchDay, hp1, he]⟩

theorem searchDay_allFalse (p : Date → Bool) (hp : ∀ d, p d = false)
    (fuel : Nat) (d : Date) : searchDay p fuel d = none := by
  induction fuel generalizing d with
  | zero => rfl
  | succ n ih => simp [searchDay, hp, ih]

theorem toDays_addMonthsClamp (d : Date) (hv : d.Valid) :
    toDays d < toDays (addMonthsClamp d) := by
  obtain ⟨hy, hm1, hm2, hd1, hd2⟩ := hv
  unfold addMonthsClamp
  split
  · rename_i h
    have hs := daysBeforeMonth_succ (isLeap d.year) d.month hm1 (by omega)
    have hp := daysInMonth_pos (isLeap d.year) (d.month + 1)
    simp only [toDays]
    omega
  · rename_i h
    have hm : d.month = 12 := by omega
    have hL := leapsUpto_succ d.year hy
    have h1 : daysBeforeMonth (isLeap (d.year + 1)) 1 = 0 := rfl
    simp only [toDays, h1, Nat.add_sub_cancel]
    rw [hm] at hd2 ⊢
    cases hLY : isLeap d.year
    · rw [hLY] at hL hd2
      simp at hL
      rw [show daysBeforeMonth false 12 = 334 from rfl]
      rw [show daysInMonth false 12 = 31 from rfl] at hd2
      omega
    · rw [hLY] at hL hd2
      simp at hL
      rw [show daysBeforeMonth true 12 = 335 from rfl]
      rw [show daysInMonth true 12 = 31 from rfl] at hd2
      omega

theorem toDays_firstOfNextMonth (d : Date) (hv : d.Valid) :
    toDays d < toDays (firstOfNextMonth d) := by
  obtain ⟨hy, hm1, hm2, hd1, hd2⟩ := hv
  unfold firstOfNextMonth
  split
  · rename_i h
    have hs := daysBeforeMonth_succ (isLeap d.year) d.month hm1 (by omega)
    simp only [toDays]
    omega
  · rename_i h
    have hm : d.month = 12 := by omega
    have hL := leapsUpto_succ d.year hy
    have h1 : daysBeforeMonth (isLeap (d.year + 1)) 1 = 0 := rfl
    simp only [toDays, h1, Nat.add_sub_cancel]
    rw [hm] at hd2 ⊢
    cases hLY : isLeap d.year
    · rw [hLY] at hL hd2
      simp at hL
      rw [show daysBeforeMonth false 12 = 334 from rfl]
      rw [show daysInMonth false 12 = 31 from rfl] at hd2
      omega
    · rw [hLY] at hL hd2
      simp at hL
      rw [show daysBeforeMonth true 12 = 335 from rfl]
      rw [show daysInMonth true 12 = 31 from rfl] at hd2
      omega

theorem calc_none_id (fuel : Nat) (t : PyDateTime) (ds : Option (List Nat)) :
    calculate_next fuel t "none" ds = some t := rfl

theorem calc_daily_eq (fuel : Nat) (t : PyDateTime) (ds : Option (List Nat)) :
    calculate_next fuel t "daily" ds = some ⟨addDays 1 t.date, t.tod⟩ := rfl

theorem nextDay_addDays (k : Nat) (d : Date) :
    nextDay (addDays k d) = addDays (k + 1) d := by
  induction k generalizing d with
  | zero => rfl
  | succ n ih =>
    rw [addDays_succ, ih, ← addDays_succ]

theorem searchDay_step (p : Date → Bool) (fuel : Nat) (d : Date) :
    searchDay p (fuel + 1) d =
      if p (nextDay d) then some (nextDay d) else searchDay p fuel (nextDay d) := rfl

theorem searchDay_exact (p : Date → Bool) (fuel k : Nat) (d : Date)
    (h1 : 1 ≤ k) (h2 : k ≤ fuel)
    (hfalse : ∀ i, 1 ≤ i → i < k → p (addDays i d) = false)
    (htrue : p (addDays k d) = true) :
    searchDay p fuel d = some (addDays k d) := by
  induction fuel generalizing d k with
  | zero => omega
  | succ n ih =>
    rw [searchDay_step]
    by_cases hk1 : k = 1
    · subst hk1
      rw [addDays_one] at htrue
      rw [if_pos htrue, addDays_one]
    · have hpf : p (nextDay d) = false := by
        have h := hfalse 1 (le_refl 1) (by omega)
        rwa [addDays_one] at h
      rw [if_neg (by simp [hpf])]
      obtain ⟨k2, rfl⟩ : ∃ k2, k = k2 + 1 := ⟨k - 1, by omega⟩
      have hfalse2 : ∀ i, 1 ≤ i → i < k2 → p (addDays i (nextDay d)) = false := by
        intro i hi1 hi2
        have h := hfalse (i + 1) (by omega) (by omega)
        rwa [addDays_succ] at h
      have htrue2 : p (addDays k2 (nextDay d)) = true := by
        rw [← addDays_succ]
        exact htrue
      exact ih k2 (nextDay d) (by omega) (by omega) hfalse2 htrue2

theorem pyLt_addDays (t : PyDateTime) (k : Nat) (hk : 1 ≤ k) (hv : t.date.Valid) :
    pyLt t ⟨addDays k t.date, t.tod⟩ = true := by
  have h := (toDays_addDays k t.date hv).1
  simp only [pyLt, toSecs, decide_eq_true_eq]
  rw [h]
  omega

theorem pyLt_dateGrow (t : PyDateTime) (d2 : Date) (h : toDays t.date < toDays d2) :
    pyLt t ⟨d2, t.tod⟩ = true := by
  simp only [pyLt, toSecs, decide_eq_true_eq]
  omega

theorem reconcileNext_step (fuel : Nat) (now nt nt2 : PyDateTime) (r : String)
    (ds : Option (List Nat)) (hlt : pyLt nt now = true)
    (hc : calculate_next (fuel + 1) nt r ds = some nt2) :
    reconcileNext (fuel + 1) now nt r ds = reconcileNext fuel now nt2 r ds := by
  simp [reconcileNext, hlt, hc]

theorem reconcileNext_done (fuel : Nat) (now nt : PyDateTime) (r : String)
    (ds : Option (List Nat)) (hlt : pyLt nt now = false) :
    reconcileNext (fuel + 1) now nt r ds = some nt := by
  simp [reconcileNext, hlt]

theorem reconcileNext_none_diverges (fuel : Nat) (now nt : PyDateTime)
    (days : Option (List Nat)) (hlt : pyLt nt now = true) :
    reconcileNext fuel now nt "none" days = none := by
  induction fuel with
  | zero => rfl
  | succ n ih => simp [reconcileNext, hlt, calc_none_id, ih]

theorem sweepTasks_proj (ca ra cb rb : Bool) (fuel mHa mHb : Nat) (now : PyDateTime)
    (ts : List TaskData) (ha hb : List HistEntry) :
    (sweepTasks ca ra fuel mHa now ts ha).map (fun x => (x.1, x.2.2))
      = (sweepTasks cb rb fuel mHb now ts hb).map (fun x => (x.1, x.2.2)) := by
  induction ts generalizing ha hb with
  | nil => rfl
  | cons t ts ih =>
    by_cases hen : t.enabled = false
    · simp only [sweepTasks, if_pos hen]
      have key := ih ha hb
      rcases h1 : sweepTasks ca ra fuel mHa now ts ha with _ | ⟨ts1, hh1, b1⟩ <;>
        rcases h2 : sweepTasks cb rb fuel mHb now ts hb with _ | ⟨ts2, hh2, b2⟩ <;>
        rw [h1, h2] at key <;> simp_all
    · simp only [sweepTasks, if_neg hen]
      rcases hnt : t.next_time with _ | nt
      · simp
      · by_cases hdue : pyLe nt now = true
        · simp only [hdue, if_true]
          by_cases hrec : t.recurring = "none"
          · simp only [hrec, if_pos rfl]
            exact ih _ _
          · rw [if_neg hrec, if_neg hrec]
            rcases hc : calculate_next fuel nt t.recurring t.days with _ | nt2
            · rfl
            · have key := ih ((print_task ca ra mHa now t ha).1)
                ((print_task cb rb mHb now t hb).1)
              rcases h1 : sweepTasks ca ra fuel mHa now ts ((print_task ca ra mHa now t ha).1)
                  with _ | ⟨ts1, hh1, b1⟩ <;>
                rcases h2 : sweepTasks cb rb fuel mHb now ts ((print_task cb rb mHb now t hb).1)
                  with _ | ⟨ts2, hh2, b2⟩ <;>
                rw [h1, h2] at key <;> simp_all
        · simp only [hdue, if_false]
          have key := ih ha hb
          rcases h1 : sweepTasks ca ra fuel mHa now ts ha with _ | ⟨ts1, hh1, b1⟩ <;>
            rcases h2 : sweepTasks cb rb fuel mHb now ts hb with _ | ⟨ts2, hh2, b2⟩ <;>
            rw [h1, h2] at key <;> simp_all

/-- C1 (code bug in the source).  The claim says startup reconciliation
terminates for every task store, leaving an enabled past-due one-shot
(`recurring = 'none'`) task's next-occurrence unchanged and proceeding to
the main loop.  In the code, `calculate_next` is the identity for kind
`'none'`, so the reconciliation loop `while next_time < now` never makes
progress on such a task: the startup pass diverges and the scheduler never
reaches the main loop.  This theorem proves the divergence: for an enabled
one-shot task whose parsed `next_time` is before `now`, the startup pass
returns `none` (no result) at every fuel bound. -/
theorem C1_one_shot_startup_diverges (fuel : Nat) (now nt : PyDateTime)
    (t : TaskData) (rest : List TaskData)
    (he : t.enabled = true) (hn : t.next_time = some nt) (hr : t.recurring = "none")
    (hlt : pyLt nt now = true) :
    reconcileStartup fuel now (t :: rest) = none := by
  have hdiv := reconcileNext_none_diverges fuel now nt t.days hlt
  simp [reconcileStartup, reconcileTask, he, hn, hr, hdiv]

/-- Witness for C1: a concrete enabled one-shot task one day in the past
makes the startup pass return no result at fuel 25. -/
theorem C1_one_shot_startup_diverges_witness :
    reconcileStartup 25 ⟨⟨2024, 1, 2⟩, 0⟩
      [⟨"42", "water plants", some ⟨⟨2024, 1, 1⟩, 9 * 3600⟩, "none", none, true⟩]
      = none :=
  C1_one_shot_startup_diverges 25 ⟨⟨2024, 1, 2⟩, 0⟩ ⟨⟨2024, 1, 1⟩, 9 * 3600⟩
    ⟨"42", "water plants", some ⟨⟨2024, 1, 1⟩, 9 * 3600⟩, "none", none, true⟩ []
    rfl rfl rfl (by decide)

/-- C2 (code bug in the source).  The claim says `calculate_next` with kind
`'custom'` and an empty or missing weekday set fails fast and terminates.
In the code the `custom` branch replaces a falsy `days` by `[]` and then
runs `while True` looking for a weekday in the empty set, which never
succeeds: the call diverges.  This theorem proves the divergence — for
every fuel bound the loop has not produced a result — for both the empty
set and the missing (`None`) set. -/
theorem C2_custom_empty_diverges (fuel : Nat) (t : PyDateTime) :
    calculate_next fuel t "custom" (some []) = none ∧
    calculate_next fuel t "custom" none = none := by
  have hse : searchDay (fun d => (([] : List Nat)).contains (weekday d)) fuel t.date = none :=
    searchDay_allFalse _ (fun d2 => rfl) fuel t.date
  constructor
  · show (searchDay (fun d => (([] : List Nat)).contains (weekday d)) fuel t.date).map
        (fun d => (⟨d, t.tod⟩ : PyDateTime)) = none
    rw [hse]
    rfl
  · show (searchDay (fun d => (([] : List Nat)).contains (weekday d)) fuel t.date).map
        (fun d => (⟨d, t.tod⟩ : PyDateTime)) = none
    rw [hse]
    rfl

/-- C5 (corrected).  The spec scenario claims a daily task stored at
2024-01-01T09:00:00 and reconciled at 2024-01-03T09:00:01 ends at
2024-01-03T09:00:00.  The code's loop advances while `next_time < now`,
and 2024-01-03T09:00:00 is still before 09:00:01, so it advances once
more: the reconciled next-occurrence is 2024-01-04T09:00:00 (the first
daily instant not before `now`).  The startup pass contains no render call,
so nothing is printed.  Proved for every sufficient fuel bound, i.e. this
is the value the unbounded Python loop computes. -/
theorem C5_daily_reconcile_jan4 (fuel : Nat) (hf : 4 ≤ fuel) :
    reconcileStartup fuel ⟨⟨2024, 1, 3⟩, 9 * 3600 + 1⟩
      [⟨"d1", "standup", some ⟨⟨2024, 1, 1⟩, 9 * 3600⟩, "daily", none, true⟩]
      = some [⟨"d1", "standup", some ⟨⟨2024, 1, 4⟩, 9 * 3600⟩, "daily", none, true⟩] := by
  obtain ⟨k, rfl⟩ : ∃ k, fuel = k + 4 := ⟨fuel - 4, by omega⟩
  have hrec : reconcileNext (k + 4) ⟨⟨2024, 1, 3⟩, 9 * 3600 + 1⟩
      ⟨⟨2024, 1, 1⟩, 9 * 3600⟩ "daily" none
      = some ⟨⟨2024, 1, 4⟩, 9 * 3600⟩ := by
    rw [show k + 4 = k + 3 + 1 from by omega,
      reconcileNext_step (k + 3) ⟨⟨2024, 1, 3⟩, 9 * 3600 + 1⟩ ⟨⟨2024, 1, 1⟩, 9 * 3600⟩
        ⟨⟨2024, 1, 2⟩, 9 * 3600⟩ "daily" none (by decide) (by rw [calc_daily_eq]; decide),
      show k + 3 = k + 2 + 1 from by omega,
      reconcileNext_step (k + 2) ⟨⟨2024, 1, 3⟩, 9 * 3600 + 1⟩ ⟨⟨2024, 1, 2⟩, 9 * 3600⟩
        ⟨⟨2024, 1, 3⟩, 9 * 3600⟩ "daily" none (by decide) (by rw [calc_daily_eq]; decide),
      show k + 2 = k + 1 + 1 from by omega,
      reconcileNext_step (k + 1) ⟨⟨2024, 1, 3⟩, 9 * 3600 + 1⟩ ⟨⟨2024, 1, 3⟩, 9 * 3600⟩
        ⟨⟨2024, 1, 4⟩, 9 * 3600⟩ "daily" none (by decide) (by rw [calc_daily_eq]; decide),
      show k + 1 = k + 0 + 1 from by omega,
      reconcileNext_done (k + 0) ⟨⟨2024, 1, 3⟩, 9 * 3600 + 1⟩ ⟨⟨2024, 1, 4⟩, 9 * 3600⟩
        "daily" none (by decide)]
  simp [reconcileStartup, reconcileTask, hrec]

/-- Witness for C5: the amended scenario at the smallest sufficient fuel. -/
theorem C5_daily_reconcile_jan4_witness :
    reconcileStartup 4 ⟨⟨2024, 1, 3⟩, 9 * 3600 + 1⟩
      [⟨"d1", "standup", some ⟨⟨2024, 1, 1⟩, 9 * 3600⟩, "daily", none, true⟩]
      = some [⟨"d1", "standup", some ⟨⟨2024, 1, 4⟩, 9 * 3600⟩, "daily", none, true⟩] :=
  C5_daily_reconcile_jan4 4 (by decide)

/-- Counterexample for C5 as stated: at the claimed input the startup pass
computes next-occurrence 2024-01-04T09:00:00, which differs from the
claimed 2024-01-03T09:00:00. -/
theorem C5_counterexample :
    reconcileStartup 10 ⟨⟨2024, 1, 3⟩, 9 * 3600 + 1⟩
      [⟨"d1", "standup", some ⟨⟨2024, 1, 1⟩, 9 * 3600⟩, "daily", none, true⟩]
      = some [⟨"d1", "standup", some ⟨⟨2024, 1, 4⟩, 9 * 3600⟩, "daily", none, true⟩] ∧
    some [(⟨"d1", "standup", some ⟨⟨2024, 1, 4⟩, 9 * 3600⟩, "daily", none, true⟩ : TaskData)]
      ≠ some [(⟨"d1", "standup", some ⟨⟨2024, 1, 3⟩, 9 * 3600⟩, "daily", none, true⟩ : TaskData)] := by
  decide

/-- C7 (confirmed): every insert into the history — a task fire in
`print_task`, an external issue in `print_scf_issue` — truncates to
`max_history`, so the stored history never exceeds it; and the `settings`
POST truncates the existing history to the newly configured bound
immediately. -/
theorem C7_history_bounded (maxH newMax : Nat) (now : PyDateTime) (t : TaskData)
    (issue : Issue) (h : List HistEntry) :
    ((print_task true true maxH now t h).1).length ≤ maxH ∧
    ((print_scf_issue true true maxH now issue h).1).length ≤ maxH ∧
    settings_post newMax h = h.take newMax ∧
    ((settings_post newMax h).length ≤ newMax) := by
  refine ⟨?_, ?_, rfl, ?_⟩ <;>
    simp [print_task, print_scf_issue, settings_post, List.length_take]

/-- C10 (confirmed): for every parsed timestamp, `calculate_next` with kind
`'none'` or any kind outside the six recognised recurrence kinds falls
through every branch and returns its input unchanged, raising nothing
(`'none'` is not one of the six recognised kinds, so the single hypothesis
covers both halves of the claim). -/
theorem C10_fallthrough_identity (fuel : Nat) (t : PyDateTime)
    (days : Option (List Nat)) (kind : String)
    (h : kind ∉ ["daily", "weekly", "monthly", "every_weekday",
      "first_day_month", "custom"]) :
    calculate_next fuel t kind days = some t := by
  simp only [List.mem_cons, List.not_mem_nil, or_false] at h
  push_neg at h
  obtain ⟨h1, h2, h3, h4, h5, h6⟩ := h
  simp [calculate_next, h1, h2, h3, h4, h5, h6]

/-- Witness for C10: evaluation at kind `'none'` and at an unrecognised
kind `'yearly'`. -/
theorem C10_fallthrough_identity_witness :
    calculate_next 0 ⟨⟨2024, 5, 17⟩, 61⟩ "none" none = some ⟨⟨2024, 5, 17⟩, 61⟩ ∧
    calculate_next 3 ⟨⟨2024, 5, 17⟩, 61⟩ "yearly" (some [1]) = some ⟨⟨2024, 5, 17⟩, 61⟩ :=
  ⟨C10_fallthrough_identity 0 ⟨⟨2024, 5, 17⟩, 61⟩ none "none" (by decide),
   C10_fallthrough_identity 3 ⟨⟨2024, 5, 17⟩, 61⟩ (some [1]) "yearly" (by decide)⟩

theorem checkScf_fail_unchanged (nowUtc : PyDateTime) (c r : Bool) (maxH : Nat)
    (scf : Listener) (h : List HistEntry) :
    checkScf nowUtc c r maxH none scf h = (scf, h) := by
  unfold checkScf
  split
  · split
    · rfl
    · rfl
  · rfl

/-- C6 (confirmed): if the SCF fetch (or the processing of the fetched
records) raises during a tick, the listener comes out of the check with
every field — in particular `last_check` — exactly as before, so the next
eligible check recomputes the same `after` boundary from the same
`last_check`; and when the fetch and processing succeed on an eligible
listener, `last_check` is set to the tick's UTC time in the strict
`%Y-%m-%dT%H:%M:%SZ` format. -/
theorem C6_last_check_only_on_success (nowUtc : PyDateTime) (c r : Bool)
    (maxH : Nat) (scf : Listener) (h : List HistEntry) :
    checkScf nowUtc c r maxH none scf h = (scf, h) ∧
    (∀ issues, scf.enabled = true → stripStr scf.request_types ≠ "" →
      scfDue nowUtc scf = true →
      (checkScf nowUtc c r maxH (some issues) scf h).1.last_check
        = some (strftimeStrict nowUtc)) := by
  refine ⟨checkScf_fail_unchanged nowUtc c r maxH scf h, ?_⟩
  intro issues he hr hd
  unfold checkScf
  rw [if_pos ⟨he, hr⟩, if_pos hd]

/-- Witness for C6: a listener due for 15 hours whose fetch fails keeps
`last_check = 2024-01-02T09:00:00Z`; the same listener with a successful
fetch gets `last_check = 2024-01-03T00:00:01Z`, the tick's UTC instant in
strict format. -/
theorem C6_last_check_only_on_success_witness :
    checkScf ⟨⟨2024, 1, 3⟩, 1⟩ true true 500 none
      ⟨true, "6632,6634", 10, some "2024-01-02T09:00:00Z"⟩ []
      = (⟨true, "6632,6634", 10, some "2024-01-02T09:00:00Z"⟩, []) ∧
    (checkScf ⟨⟨2024, 1, 3⟩, 1⟩ true true 500 (some [])
      ⟨true, "6632,6634", 10, some "2024-01-02T09:00:00Z"⟩ []).1.last_check
      = some "2024-01-03T00:00:01Z" := by
  have h := C6_last_check_only_on_success ⟨⟨2024, 1, 3⟩, 1⟩ true true 500
    ⟨true, "6632,6634", 10, some "2024-01-02T09:00:00Z"⟩ []
  refine ⟨h.1, ?_⟩
  rw [h.2 [] rfl (by decide) (by decide)]
  decide

/-- C8 (confirmed): when the render device is unavailable, `print_task`
returns before rendering and leaves the history untouched, but the sweep
still performs the state transition exactly as on a successful render: a
due enabled one-shot task is removed from the store, any other kind has its
next-occurrence replaced by the `calculate_next` value, and the surviving
task list (and the raised flag) are identical to those of a tick with a
connected, successful printer. -/
theorem C8_unavailable_render_still_advances (ra : Bool) (fuel maxH : Nat)
    (now : PyDateTime) (t : TaskData) (ts : List TaskData) (h : List HistEntry)
    (nt : PyDateTime) (he : t.enabled = true) (hn : t.next_time = some nt)
    (hd : pyLe nt now = true) :
    print_task false ra maxH now t h = (h, false) ∧
    (t.recurring = "none" →
      sweepTasks false ra fuel maxH now (t :: ts) h
        = sweepTasks false ra fuel maxH now ts h) ∧
    (∀ nt2, t.recurring ≠ "none" →
      calculate_next fuel nt t.recurring t.days = some nt2 →
      sweepTasks false ra fuel maxH now (t :: ts) h
        = (sweepTasks false ra fuel maxH now ts h).map
            (fun x => ({ t with next_time := some nt2 } :: x.1, x.2.1, x.2.2))) ∧
    (sweepTasks false ra fuel maxH now (t :: ts) h).map (fun x => (x.1, x.2.2))
      = (sweepTasks true true fuel maxH now (t :: ts) h).map (fun x => (x.1, x.2.2)) := by
  have hpt : print_task false ra maxH now t h = (h, false) := rfl
  refine ⟨hpt, ?_, ?_,
    sweepTasks_proj false ra true true fuel maxH maxH now (t :: ts) h h⟩
  · intro hrec
    simp [sweepTasks, he, hn, hd, hrec, hpt]
  · intro nt2 hrec hc
    simp [sweepTasks, he, hn, hd, hrec, hc, hpt]

/-- Witness for C8: a due enabled one-shot task is removed by the sweep even
with the printer disconnected. -/
theorem C8_unavailable_render_still_advances_witness :
    sweepTasks false true 7 5 ⟨⟨2024, 1, 2⟩, 0⟩
      [⟨"a", "trash", some ⟨⟨2024, 1, 1⟩, 0⟩, "none", none, true⟩] []
      = sweepTasks false true 7 5 ⟨⟨2024, 1, 2⟩, 0⟩ [] [] :=
  (C8_unavailable_render_still_advances true 7 5 ⟨⟨2024, 1, 2⟩, 0⟩
    ⟨"a", "trash", some ⟨⟨2024, 1, 1⟩, 0⟩, "none", none, true⟩ [] []
    ⟨⟨2024, 1, 1⟩, 0⟩ rfl rfl (by decide)).2.1 rfl

/-- Counterexample for C3 as stated: a tick over the store
`[bad, good]` — where `bad` is enabled with an unparseable stored
`next_time` and `good` is enabled and due — with a working printer, a due
listener and a successful fetch, leaves `good` unfired and unadvanced and
the listener's `last_check` unset: the error in `bad`'s processing aborted
every other item of the tick, refuting per-item isolation. -/
theorem C3_counterexample :
    tick true true 7 ⟨⟨2024, 1, 2⟩, 0⟩ ⟨⟨2024, 1, 2⟩, 0⟩ (some [])
      ⟨[⟨"bad", "broken", none, "daily", none, true⟩,
        ⟨"good", "ok", some ⟨⟨2024, 1, 1⟩, 0⟩, "daily", none, true⟩],
        [], 500, some ⟨true, "6632", 10, none⟩⟩
      = some ⟨[⟨"bad", "broken", none, "daily", none, true⟩,
        ⟨"good", "ok", some ⟨⟨2024, 1, 1⟩, 0⟩, "daily", none, true⟩],
        [], 500, some ⟨true, "6632", 10, none⟩⟩ ∧
    pyLe ⟨⟨2024, 1, 1⟩, 0⟩ ⟨⟨2024, 1, 2⟩, 0⟩ = true ∧
    scfDue ⟨⟨2024, 1, 2⟩, 0⟩ ⟨true, "6632", 10, none⟩ = true := by
  decide

/-- C3 (corrected): failures are isolated per item only for rendering and
for the listener's fetch — a printer/render failure never changes which
tasks advance or whether the sweep raises, and a failed fetch leaves the
listener and history untouched — but an error raised in one task's
state-transition processing (an enabled task whose stored `next_time`
does not parse) escapes to the tick-wide handler: the remaining tasks stay
unprocessed and the listener check is skipped for that tick (the loop
itself survives to the next tick). -/
theorem C3_isolation_and_abort (ca ra cb rb : Bool) (fuel mHa mHb : Nat)
    (now nowUtc : PyDateTime) (ts rest : List TaskData) (ha hb h2 : List HistEntry)
    (t : TaskData) (st : AppState) (fetch : Option (List Issue)) (scf : Listener)
    (hist : List HistEntry)
    (he : t.enabled = true) (hn : t.next_time = none) (hst : st.tasks = t :: rest) :
    ((sweepTasks ca ra fuel mHa now ts ha).map (fun x => (x.1, x.2.2))
      = (sweepTasks cb rb fuel mHb now ts hb).map (fun x => (x.1, x.2.2))) ∧
    checkScf nowUtc ca ra mHa none scf hist = (scf, hist) ∧
    sweepTasks ca ra fuel mHa now (t :: rest) h2 = some (t :: rest, h2, true) ∧
    tick ca ra fuel now nowUtc fetch st = some { st with tasks := t :: rest } := by
  refine ⟨sweepTasks_proj ca ra cb rb fuel mHa mHb now ts ha hb,
    checkScf_fail_unchanged nowUtc ca ra mHa scf hist, ?_, ?_⟩
  · simp [sweepTasks, he, hn]
  · unfold tick
    rw [hst]
    have hsw : sweepTasks ca ra fuel st.max_history now (t :: rest) st.history
        = some (t :: rest, st.history, true) := by
      simp [sweepTasks, he, hn]
    rw [hsw]
    rfl

/-- Witness for C3's amended statement: the abort conjunct evaluated on a
concrete enabled task with unparseable `next_time`. -/
theorem C3_isolation_and_abort_witness :
    sweepTasks true true 7 500 ⟨⟨2024, 1, 2⟩, 0⟩
      [⟨"bad", "broken", none, "daily", none, true⟩] []
      = some ([⟨"bad", "broken", none, "daily", none, true⟩], [], true) :=
  (C3_isolation_and_abort true true true true 7 500 500 ⟨⟨2024, 1, 2⟩, 0⟩
    ⟨⟨2024, 1, 2⟩, 0⟩ [] [] [] [] [] ⟨"bad", "broken", none, "daily", none, true⟩
    ⟨[⟨"bad", "broken", none, "daily", none, true⟩], [], 500, none⟩ none
    ⟨true, "6632", 10, none⟩ [] rfl rfl rfl).2.2.1

/-- Counterexample for C4 as stated: the claim includes kind `'none'` among
the kinds for which `calculate_next` returns a timestamp strictly after its
input, but for `'none'` the function returns the input itself, which is not
strictly after it. -/
theorem C4_counterexample :
    calculate_next 7 ⟨⟨2024, 1, 5⟩, 0⟩ "none" none = some ⟨⟨2024, 1, 5⟩, 0⟩ ∧
    pyLt ⟨⟨2024, 1, 5⟩, 0⟩ ⟨⟨2024, 1, 5⟩, 0⟩ = false := by
  decide

/-- C4 (corrected): for every valid input timestamp and every advancing
recurrence kind — `daily`, `weekly`, `monthly`, `every_weekday`,
`first_day_month`, and `custom` with a non-empty set of weekday indices
(each index below 7) — `calculate_next` terminates (fuel 7 suffices for the
day-stepping loops) and returns a timestamp strictly after its input.  Kind
`'none'`, which the claim wrongly included, is the identity instead
(see the counterexample). -/
theorem C4_strictly_after (t : PyDateTime) (kind : String) (days : Option (List Nat))
    (hv : t.date.Valid)
    (hk : kind = "daily" ∨ kind = "weekly" ∨ kind = "monthly" ∨
      kind = "every_weekday" ∨ kind = "first_day_month" ∨
      (kind = "custom" ∧ ∃ l, days = some l ∧ l ≠ [] ∧ ∀ x ∈ l, x < 7)) :
    ∃ u, calculate_next 7 t kind days = some u ∧ pyLt t u = true := by
  rcases hk with rfl | rfl | rfl | rfl | rfl | ⟨rfl, l, rfl, hne, hl7⟩
  · exact ⟨⟨addDays 1 t.date, t.tod⟩, calc_daily_eq 7 t days,
      pyLt_addDays t 1 (le_refl 1) hv⟩
  · exact ⟨⟨addDays 7 t.date, t.tod⟩, rfl, pyLt_addDays t 7 (by omega) hv⟩
  · exact ⟨⟨addMonthsClamp t.date, t.tod⟩, rfl,
      pyLt_dateGrow t _ (toDays_addMonthsClamp t.date hv)⟩
  · have hwa : ∀ k, weekday (addDays k t.date) = (weekday t.date + k) % 7 :=
      fun k => weekday_addDays k t.date hv
    have hw7 : weekday t.date < 7 := Nat.mod_lt _ (by omega)
    have hfound : ∃ k, 1 ≤ k ∧ k ≤ 7 ∧
        decide (weekday (addDays k t.date) < 5) = true := by
      by_cases h4 : weekday t.date = 4
      · exact ⟨3, by omega, by omega, by rw [hwa 3, h4]; decide⟩
      · by_cases h5 : weekday t.date = 5
        · exact ⟨2, by omega, by omega, by rw [hwa 2, h5]; decide⟩
        · refine ⟨1, le_refl 1, by omega, ?_⟩
          rw [hwa 1]
          have hlt : (weekday t.date + 1) % 7 < 5 := by omega
          exact decide_eq_true hlt
    obtain ⟨k, hk1, hk7, hkp⟩ := hfound
    obtain ⟨e, he⟩ := searchDay_found (fun d => decide (weekday d < 5)) 7 k t.date hk1 hk7 hkp
    obtain ⟨j, hj1, hj7, rfl, hpe⟩ := searchDay_sound _ 7 t.date e he
    refine ⟨⟨addDays j t.date, t.tod⟩, ?_, pyLt_addDays t j hj1 hv⟩
    show (searchDay (fun d => decide (weekday d < 5)) 7 t.date).map
      (fun d => (⟨d, t.tod⟩ : PyDateTime)) = some ⟨addDays j t.date, t.tod⟩
    rw [he]
    rfl
  · exact ⟨⟨firstOfNextMonth t.date, t.tod⟩, rfl,
      pyLt_dateGrow t _ (toDays_firstOfNextMonth t.date hv)⟩
  · have hwa : ∀ k, weekday (addDays k t.date) = (weekday t.date + k) % 7 :=
      fun k => weekday_addDays k t.date hv
    have hw7 : weekday t.date < 7 := Nat.mod_lt _ (by omega)
    obtain ⟨x, hx⟩ := List.exists_mem_of_ne_nil l hne
    have hx7 : x < 7 := hl7 x hx
    have hk1 : 1 ≤ (x + 7 - weekday t.date - 1) % 7 + 1 := by omega
    have hk7 : (x + 7 - weekday t.date - 1) % 7 + 1 ≤ 7 := by omega
    have hmod : (weekday t.date + ((x + 7 - weekday t.date - 1) % 7 + 1)) % 7 = x := by
      omega
    have hkp : (fun d => l.contains (weekday d))
        (addDays ((x + 7 - weekday t.date - 1) % 7 + 1) t.date) = true := by
      simp only
      rw [hwa, hmod]
      exact List.elem_eq_true_of_mem hx
    obtain ⟨e, he⟩ := searchDay_found (fun d => l.contains (weekday d)) 7 _ t.date hk1 hk7 hkp
    obtain ⟨j, hj1, hj7, rfl, hpe⟩ := searchDay_sound _ 7 t.date e he
    refine ⟨⟨addDays j t.date, t.tod⟩, ?_, pyLt_addDays t j hj1 hv⟩
    show (searchDay (fun d => l.contains (weekday d)) 7 t.date).map
      (fun d => (⟨d, t.tod⟩ : PyDateTime)) = some ⟨addDays j t.date, t.tod⟩
    rw [he]
    rfl

/-- Witness for C4's amended statement: the daily kind at a concrete valid
timestamp. -/
theorem C4_strictly_after_witness :
    ∃ u, calculate_next 7 ⟨⟨2024, 2, 28⟩, 43200⟩ "daily" none = some u ∧
      pyLt ⟨⟨2024, 2, 28⟩, 43200⟩ u = true :=
  C4_strictly_after ⟨⟨2024, 2, 28⟩, 43200⟩ "daily" none (by decide) (Or.inl rfl)

/-- C9 (confirmed): `calculate_next` with kind `'every_weekday'` maps any
timestamp on a Friday (`weekday = 4`) to the same time of day three days
later, which is the following Monday (`weekday = 0`, and no earlier
advance lands on a Monday); any timestamp on a Saturday (`weekday = 5`)
goes to the same time of day two days later, again the following Monday. -/
theorem C9_friday_saturday_to_monday (t : PyDateTime) (days : Option (List Nat))
    (hv : t.date.Valid) :
    (weekday t.date = 4 →
      calculate_next 7 t "every_weekday" days = some ⟨addDays 3 t.date, t.tod⟩ ∧
      weekday (addDays 3 t.date) = 0 ∧
      ∀ k, 1 ≤ k → k < 3 → weekday (addDays k t.date) ≠ 0) ∧
    (weekday t.date = 5 →
      calculate_next 7 t "every_weekday" days = some ⟨addDays 2 t.date, t.tod⟩ ∧
      weekday (addDays 2 t.date) = 0 ∧
      ∀ k, 1 ≤ k → k < 2 → weekday (addDays k t.date) ≠ 0) := by
  have hwa : ∀ k, weekday (addDays k t.date) = (weekday t.date + k) % 7 :=
    fun k => weekday_addDays k t.date hv
  constructor
  · intro hw
    have hfalse : ∀ i, 1 ≤ i → i < 3 →
        (fun d => decide (weekday d < 5)) (addDays i t.date) = false := by
      intro i h1 h2
      interval_cases i <;> simp [hwa, hw]
    have htrue : (fun d => decide (weekday d < 5)) (addDays 3 t.date) = true := by
      simp [hwa, hw]
    have hs := searchDay_exact (fun d => decide (weekday d < 5)) 7 3 t.date
      (by omega) (by omega) hfalse htrue
    refine ⟨?_, by rw [hwa 3, hw], ?_⟩
    · show (searchDay (fun d => decide (weekday d < 5)) 7 t.date).map
        (fun d => (⟨d, t.tod⟩ : PyDateTime)) = some ⟨addDays 3 t.date, t.tod⟩
      rw [hs]
      rfl
    · intro k hk1 hk2
      interval_cases k <;> rw [hwa, hw] <;> decide
  · intro hw
    have hfalse : ∀ i, 1 ≤ i → i < 2 →
        (fun d => decide (weekday d < 5)) (addDays i t.date) = false := by
      intro i h1 h2
      interval_cases i <;> simp [hwa, hw]
    have htrue : (fun d => decide (weekday d < 5)) (addDays 2 t.date) = true := by
      simp [hwa, hw]
    have hs := searchDay_exact (fun d => decide (weekday d < 5)) 7 2 t.date
      (by omega) (by omega) hfalse htrue
    refine ⟨?_, by rw [hwa 2, hw], ?_⟩
    · show (searchDay (fun d => decide (weekday d < 5)) 7 t.date).map
        (fun d => (⟨d, t.tod⟩ : PyDateTime)) = some ⟨addDays 2 t.date, t.tod⟩
      rw [hs]
      rfl
    · intro k hk1 hk2
      interval_cases k <;> rw [hwa, hw] <;> decide

/-- Witness for C9: Friday 2024-01-05 and Saturday 2024-01-06 both advance
to Monday 2024-01-08 at the same time of day. -/
theorem C9_friday_saturday_to_monday_witness :
    calculate_next 7 ⟨⟨2024, 1, 5⟩, 9 * 3600⟩ "every_weekday" none
      = some ⟨⟨2024, 1, 8⟩, 9 * 3600⟩ ∧
    calculate_next 7 ⟨⟨2024, 1, 6⟩, 9 * 3600⟩ "every_weekday" none
      = some ⟨⟨2024, 1, 8⟩, 9 * 3600⟩ := by
  constructor
  · have h := ((C9_friday_saturday_to_monday ⟨⟨2024, 1, 5⟩, 9 * 3600⟩ none
      (by decide)).1 (by decide)).1
    rw [h]
    decide
  · have h := ((C9_friday_saturday_to_monday ⟨⟨2024, 1, 6⟩, 9 * 3600⟩ none
      (by decide)).2 (by decide)).1
    rw [h]
    decide
